import Mathlib

/-!
Shallow embedding of `pkg/assets/create/creater.go` from
wking/openshift-library-go.

The Go file implements:
  * `create(manifests, client, mapper) (error, bool)` — one apply round over
    a pending map from manifest path to decoded object, processed in sorted
    key order, deleting entries on success / already-exists;
  * `formatErrors(errors map[string]error) error` — deterministic aggregation;
  * `load(assetsDir, options)` — directory load + YAML→JSON→decode per file;
  * `EnsureManifestsCreated(ctx, dir, cfg, options)` — the retry driver built
    on `wait.PollImmediateUntil`, refreshing the REST mapper when signalled.

Go maps are embedded as association lists with (in the theorems) no duplicate
keys; machine effects (the dynamic client, the REST mapper, discovery and the
filesystem) are embedded as explicit function-valued parameters.  The
`calls` / `resolutions` fields of `ApplyState` are observation-only
instrumentation recording, in order, the create requests issued and the
manifests whose type resolution was attempted; they influence no control flow.
-/

/-- Abstract type of a manifest: group/version/kind, as returned by
`GetObjectKind().GroupVersionKind()`. -/
structure GroupVersionKind where
  group : String
  version : String
  kind : String
deriving DecidableEq

/-- Group/kind pair, as produced by `gvk.GroupKind()`. -/
structure GroupKind where
  group : String
  kind : String
deriving DecidableEq

/-- Corresponds to Go's `gvk.GroupKind()`. -/
def GroupVersionKind.groupKind (gvk : GroupVersionKind) : GroupKind :=
  ⟨gvk.group, gvk.kind⟩

/-- A decoded manifest (`*unstructured.Unstructured`): its abstract type, name
and namespace (`GetNamespace()` returns the empty string when unset; the field
is called `ns` because `namespace` is reserved in Lean). -/
structure Unstructured where
  gvk : GroupVersionKind
  name : String
  ns : String
deriving DecidableEq

/-- Scope of a REST mapping: cluster-wide (`meta.RESTScopeNameRoot`) or
namespaced. -/
inductive RESTScope
  | root
  | namespaced
deriving DecidableEq

/-- Result of `mapper.RESTMapping`: the concrete resource endpoint and its
scope. -/
structure RESTMapping where
  resource : String
  scope : RESTScope
deriving DecidableEq

/-- The REST mapper (`meta.RESTMapper`), embedded as the function answering
`RESTMapping(gvk.GroupKind(), gvk.Version)`: either a mapping or an error
message. -/
abbrev Mapper := GroupKind → String → Except String RESTMapping

/-- Outcome of a single `Create` request against the dynamic client.
`alreadyExists` corresponds to `kerrors.IsAlreadyExists(err)`, `failed` to any
other non-nil error (carrying its message). -/
inductive CreateResult
  | created
  | alreadyExists
  | failed (msg : String)
deriving DecidableEq

/-- The dynamic client, embedded as the function performing
`client.Resource(resource)[.Namespace(ns)].Create(obj)`; the namespace
argument is `none` for cluster-scoped requests. -/
abbrev DynClient := String → Option String → Unstructured → CreateResult

/-- One create request issued to the client, as recorded by the
instrumentation (the `path` labels which pending manifest the request was
issued for). -/
structure CreateCall where
  path : String
  resource : String
  ns : Option String
  obj : Unstructured
deriving DecidableEq

/-- Go map lookup `m[k]` on an association list. -/
def lookupKey (k : String) : List (String × β) → Option β
  | [] => none
  | kv :: rest => if kv.1 = k then some kv.2 else lookupKey k rest

/-- Go map deletion `delete(m, k)` on an association list. -/
def eraseKey (k : String) (l : List (String × β)) : List (String × β) :=
  l.filter (fun kv => kv.1 ≠ k)

/-- Model of Go's `sort.Strings` (lexicographic ascending). -/
def sortStrings (l : List String) : List String :=
  List.insertionSort (fun a b => a ≤ b) l

/-- Go's `%q` format verb on a path (escaping of special characters is not
modelled; paths are quoted verbatim). -/
def goQuote (s : String) : String :=
  "\"" ++ s ++ "\""

/-- Embedding of `formatErrors` (creater.go lines 144-159): nil on an empty
failure map, otherwise one message listing every path in sorted order with its
recorded reason. -/
def formatErrors (errors : List (String × String)) : Option String :=
  if errors.length = 0 then
    none
  else
    let keys := sortStrings (errors.map Prod.fst)
    let aggregatedErrMessages :=
      keys.map (fun k => goQuote k ++ ": " ++ (lookupKey k errors).getD "")
    some ("failed to create some manifests:\n"
      ++ String.intercalate "\n" aggregatedErrMessages ++ "\n")

/-- State threaded through one apply round (`create`): the mutable pending
map, the per-path failure map `errs`, the `reloadDiscovery` flag, plus the
observation-only `calls` and `resolutions` traces. -/
structure ApplyState where
  manifests : List (String × Unstructured)
  errs : List (String × String)
  reloadDiscovery : Bool
  calls : List CreateCall
  resolutions : List String
deriving DecidableEq

/-- Namespace argument passed to the client for a manifest under a resolved
mapping: none at root scope, the manifest's own namespace otherwise
(creater.go lines 119-123). -/
def resolveNs (m : Unstructured) (mp : RESTMapping) : Option String :=
  match mp.scope with
  | .root => none
  | .namespaced => some m.ns

/-- Body of the `for _, path := range sortedManifestPaths` loop of `create`
(creater.go lines 110-139) for one path.  The `none` branch of the lookup is
unreachable when the pending map has no duplicate keys (a Go map always
answers a key produced by ranging over it). -/
def processManifest (client : DynClient) (mapper : Mapper)
    (st : ApplyState) (path : String) : ApplyState :=
  match lookupKey path st.manifests with
  | none => st
  | some m =>
    match mapper m.gvk.groupKind m.gvk.version with
    | .error e =>
      { st with
        errs := st.errs ++ [(path, "unable to get REST mapping: " ++ e)]
        reloadDiscovery := true
        resolutions := st.resolutions ++ [path] }
    | .ok mappings =>
      let nsArg := resolveNs m mappings
      let res := client mappings.resource nsArg m
      let st' := { st with
        resolutions := st.resolutions ++ [path]
        calls := st.calls ++ [(⟨path, mappings.resource, nsArg, m⟩ : CreateCall)] }
      match res with
      | .alreadyExists => { st' with manifests := eraseKey path st'.manifests }
      | .failed msg =>
        { st' with errs := st'.errs ++ [(path, "failed to create: " ++ msg)] }
      | .created => { st' with manifests := eraseKey path st'.manifests }

/-- One full apply round (`create`, creater.go lines 95-142), returning the
final `ApplyState` (the tuple returned by the Go function is assembled by
`create` below). -/
def createRun (manifests : List (String × Unstructured)) (client : DynClient)
    (mapper : Mapper) : ApplyState :=
  (sortStrings (manifests.map Prod.fst)).foldl (processManifest client mapper)
    ⟨manifests, [], false, [], []⟩

/-- Embedding of `create`: the mutated pending map together with the Go
return value `(formatErrors(errs), reloadDiscovery)`. -/
def create (manifests : List (String × Unstructured)) (client : DynClient)
    (mapper : Mapper) : List (String × Unstructured) × Option String × Bool :=
  let st := createRun manifests client mapper
  (st.manifests, formatErrors st.errs, st.reloadDiscovery)

/-- Result of `runtime.Decode`: a `runtime.Object` that either is or is not a
`*unstructured.Unstructured`. -/
inductive DecodedObj
  | unstructuredObj (u : Unstructured)
  | otherObj

/-- External collaborators of `load` (creater.go lines 161-193): the
`os.Stat` existence check, `assets.LoadFilesRecursively` (already restricted
by the option predicates), `yaml.YAMLToJSON` and `runtime.Decode`. -/
structure LoaderWorld where
  statExists : Bool
  files : Except String (List (String × String))
  yamlToJSON : String → Except String String
  decodeObj : String → Except String DecodedObj

/-- The `for manifestPath, manifestBytes := range manifestsBytesMap` loop of
`load` (creater.go lines 173-190), accumulating decoded manifests and
per-path errors. -/
def loadLoop (w : LoaderWorld) :
    List (String × String) → List (String × Unstructured) →
    List (String × String) →
    List (String × Unstructured) × List (String × String)
  | [], manifests, errs => (manifests, errs)
  | (path, bytes) :: rest, manifests, errs =>
    match w.yamlToJSON bytes with
    | .error e =>
      loadLoop w rest manifests (errs ++
        [(path, "unable to convert asset " ++ goQuote path
          ++ " from YAML to JSON: " ++ e)])
    | .ok json =>
      match w.decodeObj json with
      | .error e =>
        loadLoop w rest manifests (errs ++
          [(path, "unable to decode asset " ++ goQuote path ++ ": " ++ e)])
      | .ok (.unstructuredObj u) =>
        loadLoop w rest (manifests ++ [(path, u)]) errs
      | .ok .otherObj =>
        loadLoop w rest manifests (errs ++
          [(path, "unable to convert asset " ++ goQuote path
            ++ " to unstructed")])

/-- Embedding of `load` (creater.go lines 161-193): the partial manifest map
together with the (possibly aggregated) error. -/
def load (w : LoaderWorld) (assetsDir : String) :
    List (String × Unstructured) × Option String :=
  if !w.statExists then
    ([], some ("directory " ++ goQuote assetsDir ++ " does not exists"))
  else
    match w.files with
    | .error e => ([], some e)
    | .ok manifestsBytesMap =>
      let (manifests, errs) := loadLoop w manifestsBytesMap [] []
      (manifests, formatErrors errs)

/-- State of the retry driver between polling rounds: the pending map, the
current mapper, `lastCreateError`, and the accumulated create-call trace. -/
structure DriverState where
  manifests : List (String × Unstructured)
  mapper : Mapper
  lastCreateError : Option String
  calls : List CreateCall

/-- How one invocation of the `wait.PollImmediateUntil` condition function
(creater.go lines 68-85) ends: `(true, nil)`, `(false, err)`, or
`(false, nil)` (continue). -/
inductive RoundStep
  | exitTrue (st : DriverState)
  | exitErr (e : String) (st : DriverState)
  | next (st : DriverState)

/-- Driver state carried by a `RoundStep`. -/
def RoundStep.state : RoundStep → DriverState
  | .exitTrue st => st
  | .exitErr _ st => st
  | .next st => st

/-- One invocation of the poll condition function (creater.go lines 68-85).
Note the faithful Go quirk: after a successful `mapper, err =
getRESTMapper()` the local `err` is nil, so the subsequent `lastCreateError =
err` records `none`, not the aggregated create error. -/
def pollRound (client : DynClient) (getMapper : Nat → Except String Mapper)
    (round : Nat) (st : DriverState) : RoundStep :=
  let run := createRun st.manifests client st.mapper
  let err := formatErrors run.errs
  let st1 : DriverState :=
    { st with manifests := run.manifests, calls := st.calls ++ run.calls }
  match err with
  | none => .exitTrue { st1 with lastCreateError := none }
  | some e =>
    if run.reloadDiscovery then
      match getMapper round with
      | .error re => .exitErr re st1
      | .ok m => .next { st1 with mapper := m, lastCreateError := none }
    else
      .next { st1 with lastCreateError := some e }

/-- How `wait.PollImmediateUntil` itself ends: condition true, condition
error, or `wait.ErrWaitTimeout` once the context is done. -/
inductive PollExit
  | ok
  | condErr (e : String)
  | timeout
deriving DecidableEq

/-- The polling loop, with `fuel` bounding the number of condition
invocations before `ctx.Done()` fires (the deadline).  `round` indexes the
discovery snapshot used by a refresh in that round. -/
def runPoll (client : DynClient) (getMapper : Nat → Except String Mapper) :
    Nat → Nat → DriverState → PollExit × DriverState
  | 0, _, st => (.timeout, st)
  | Nat.succ fuel, round, st =>
    match pollRound client getMapper round st with
    | .exitTrue st' => (.ok, st')
    | .exitErr e st' => (.condErr e, st')
    | .next st' => runPoll client getMapper fuel (round + 1) st'

/-- Message of `wait.ErrWaitTimeout`. -/
def waitTimeoutMessage : String :=
  "timed out waiting for the condition"

/-- Embedding of the retry portion of `EnsureManifestsCreated` (creater.go
lines 66-92): run the poll loop, then return `lastCreateError` in preference
to the loop's own error. -/
def ensureRetry (client : DynClient) (getMapper : Nat → Except String Mapper)
    (fuel : Nat) (manifests : List (String × Unstructured)) (mapper0 : Mapper) :
    Option String × DriverState :=
  let (exit, st) := runPoll client getMapper fuel 1 ⟨manifests, mapper0, none, []⟩
  match st.lastCreateError with
  | some e => (some e, st)
  | none =>
    match exit with
    | .ok => (none, st)
    | .condErr e => (some e, st)
    | .timeout => (some waitTimeoutMessage, st)

/-- External collaborators of `EnsureManifestsCreated` (creater.go lines
37-64): client construction, discovery-client construction, the loader world,
and `getRESTMapper` indexed by call number (0 = the initial mapper, `r ≥ 1` =
the refresh performed in round `r`). -/
structure EntryWorld where
  newDynamicClient : Except String DynClient
  newDiscoveryClient : Except String Unit
  loader : LoaderWorld
  getRESTMapper : Nat → Except String Mapper

/-- Embedding of `EnsureManifestsCreated` (creater.go lines 37-93): the
returned error together with the full trace of create requests issued. -/
def ensureManifestsCreated (w : EntryWorld) (manifestDir : String)
    (fuel : Nat) : Option String × List CreateCall :=
  match w.newDynamicClient with
  | .error e => (some e, [])
  | .ok client =>
    match w.newDiscoveryClient with
    | .error e => (some e, [])
    | .ok _ =>
      let loaded := load w.loader manifestDir
      match loaded.2 with
      | some e => (some e, [])
      | none =>
        match w.getRESTMapper 0 with
        | .error e => (some e, [])
        | .ok mapper0 =>
          let (res, st) :=
            ensureRetry client w.getRESTMapper fuel loaded.1 mapper0
          (res, st.calls)

/-- Whether type resolution fails for a manifest under a mapper (the
condition of the first error branch of the loop body, creater.go line 113). -/
def resolutionFails (mapper : Mapper) (m : Unstructured) : Bool :=
  match mapper m.gvk.groupKind m.gvk.version with
  | .error _ => true
  | .ok _ => false

/-- Whether processing a manifest deletes it from the pending map: type
resolution succeeds and the client answers `created` or `alreadyExists`
(creater.go lines 125-138). -/
def shouldRemove (client : DynClient) (mapper : Mapper)
    (m : Unstructured) : Bool :=
  match mapper m.gvk.groupKind m.gvk.version with
  | .error _ => false
  | .ok mp =>
    match client mp.resource (resolveNs m mp) m with
    | .created => true
    | .alreadyExists => true
    | .failed _ => false

/-- The failure recorded in `errs` for a manifest, if any: the REST-mapping
error or the create error (creater.go lines 114 and 133). -/
def manifestFailure (client : DynClient) (mapper : Mapper)
    (m : Unstructured) : Option String :=
  match mapper m.gvk.groupKind m.gvk.version with
  | .error e => some ("unable to get REST mapping: " ++ e)
  | .ok mp =>
    match client mp.resource (resolveNs m mp) m with
    | .failed msg => some ("failed to create: " ++ msg)
    | _ => none

/-- The create request issued for a manifest, if any (none when type
resolution fails, so no request reaches the client). -/
def manifestCall (client : DynClient) (mapper : Mapper) (path : String)
    (m : Unstructured) : Option CreateCall :=
  match mapper m.gvk.groupKind m.gvk.version with
  | .error _ => none
  | .ok mp => some ⟨path, mp.resource, resolveNs m mp, m⟩

/-- Filter predicate describing which pending entries survive processing the
paths in `P`. -/
def keepPred (client : DynClient) (mapper : Mapper) (P : List String)
    (kv : String × Unstructured) : Bool :=
  !(decide (kv.1 ∈ P) && shouldRemove client mapper kv.2)

/-! Basic lemmas about the association-list embedding of Go maps. -/

theorem lookupKey_eq_none {k : String} {l : List (String × β)} :
    lookupKey k l = none ↔ k ∉ l.map Prod.fst := by
  induction l with
  | nil => simp [lookupKey]
  | cons kv rest ih =>
    simp only [lookupKey, List.map_cons, List.mem_cons]
    by_cases h : kv.1 = k
    · simp [h]
    · simp only [if_neg h, ih]
      constructor
      · rintro hn (rfl | hm)
        · exact h rfl
        · exact hn hm
      · intro hn hm
        exact hn (Or.inr hm)

theorem lookupKey_mem {k : String} {v : β} :
    ∀ {l : List (String × β)}, lookupKey k l = some v → (k, v) ∈ l := by
  intro l
  induction l with
  | nil => simp [lookupKey]
  | cons kv rest ih =>
    simp only [lookupKey]
    by_cases h : kv.1 = k
    · rw [if_pos h]
      intro hv
      injection hv with hv
      have hkv : kv = (k, v) := by
        obtain ⟨k1, v1⟩ := kv
        simp only at h hv
        rw [h, hv]
      rw [← hkv]
      exact List.mem_cons_self _ _
    · rw [if_neg h]
      intro hv
      exact List.mem_cons_of_mem _ (ih hv)

theorem lookupKey_of_mem :
    ∀ {l : List (String × β)}, (l.map Prod.fst).Nodup →
      ∀ {kv : String × β}, kv ∈ l → lookupKey kv.1 l = some kv.2 := by
  intro l
  induction l with
  | nil =>
    intro _ kv h
    cases h
  | cons kv0 rest ih =>
    intro hn kv h
    simp only [List.map_cons, List.nodup_cons] at hn
    rcases List.mem_cons.mp h with rfl | hm
    · simp [lookupKey]
    · have hne : kv0.1 ≠ kv.1 :=
        fun he => hn.1 (he ▸ List.mem_map_of_mem Prod.fst hm)
      simp only [lookupKey, if_neg hne]
      exact ih hn.2 hm

theorem lookupKey_isSome {k : String} {l : List (String × β)} :
    (lookupKey k l).isSome = true ↔ k ∈ l.map Prod.fst := by
  rcases hl : lookupKey k l with _ | v
  · simpa using lookupKey_eq_none.mp hl
  · simp only [Option.isSome_some, true_iff]
    exact List.mem_map_of_mem Prod.fst (lookupKey_mem hl)

theorem lookupKey_eraseKey_ne {k k' : String} (h : k' ≠ k) :
    ∀ {l : List (String × β)}, lookupKey k' (eraseKey k l) = lookupKey k' l := by
  intro l
  induction l with
  | nil => rfl
  | cons kv rest ih =>
    by_cases hk : kv.1 = k
    · have hne : ¬(kv.1 = k') := by
        rw [hk]
        exact fun he => h he.symm
      have h1 : eraseKey k (kv :: rest) = eraseKey k rest := by
        simp [eraseKey, List.filter_cons, hk]
      rw [h1, ih]
      simp [lookupKey, hne]
    · have h1 : eraseKey k (kv :: rest) = kv :: eraseKey k rest := by
        simp [eraseKey, List.filter_cons, hk]
      rw [h1]
      by_cases hkk : kv.1 = k'
      · simp [lookupKey, hkk]
      · simp only [lookupKey, if_neg hkk]
        exact ih


theorem eraseKey_sublist (k : String) (l : List (String × β)) :
    (eraseKey k l).Sublist l :=
  List.filter_sublist l

theorem eraseKey_map_fst_nodup {k : String} {l : List (String × β)}
    (hn : (l.map Prod.fst).Nodup) : ((eraseKey k l).map Prod.fst).Nodup :=
  hn.sublist ((eraseKey_sublist k l).map Prod.fst)

theorem value_eq_of_lookup {l : List (String × β)}
    (hn : (l.map Prod.fst).Nodup) {kv : String × β} (h : kv ∈ l) {m : β}
    (hl : lookupKey kv.1 l = some m) : kv.2 = m := by
  have := lookupKey_of_mem hn h
  rw [this] at hl
  exact (Option.some.injEq _ _).mp hl

/-- Effect of processing one path that is present in the pending map: the
entry is deleted exactly on `shouldRemove`, the recorded failure is
`manifestFailure`, the stale flag absorbs `resolutionFails`, and the traces
grow by `manifestCall` and the path. -/
theorem processManifest_eq (client : DynClient) (mapper : Mapper)
    (st : ApplyState) (p : String) (m : Unstructured)
    (h : lookupKey p st.manifests = some m) :
    processManifest client mapper st p =
      { manifests :=
          if shouldRemove client mapper m then eraseKey p st.manifests
          else st.manifests,
        errs := st.errs ++
          ((manifestFailure client mapper m).map (fun e => (p, e))).toList,
        reloadDiscovery := st.reloadDiscovery || resolutionFails mapper m,
        calls := st.calls ++ (manifestCall client mapper p m).toList,
        resolutions := st.resolutions ++ [p] } := by
  obtain ⟨ms, errs, rld, calls, res⟩ := st
  simp only at h
  simp only [processManifest, h, shouldRemove, manifestFailure, manifestCall,
    resolutionFails]
  cases hm : mapper m.gvk.groupKind m.gvk.version with
  | error e => simp
  | ok mp =>
    cases hc : client mp.resource (resolveNs m mp) m with
    | created => simp [hc]
    | alreadyExists => simp [hc]
    | failed msg => simp [hc]

/-- Congruence for `List.any`. -/
theorem any_congr {α : Type} {f g : α → Bool} :
    ∀ {l : List α}, (∀ a ∈ l, f a = g a) → l.any f = l.any g := by
  intro l
  induction l with
  | nil =>
    intro _
    rfl
  | cons a l ih =>
    intro h
    simp only [List.any_cons, h a (List.mem_cons_self a l),
      ih (fun b hb => h b (List.mem_cons_of_mem a hb))]

/-- Characterization of the `create` loop over any duplicate-free path list
`P`, by induction: each component of the final state is a pointwise function
of the initial pending map. -/
theorem foldl_process_eq (client : DynClient) (mapper : Mapper) :
    ∀ (P : List String) (st : ApplyState), P.Nodup →
      (st.manifests.map Prod.fst).Nodup →
      P.foldl (processManifest client mapper) st =
        { manifests := st.manifests.filter (keepPred client mapper P),
          errs := st.errs ++ P.filterMap (fun p =>
            (lookupKey p st.manifests).bind
              (fun m => (manifestFailure client mapper m).map (fun e => (p, e)))),
          reloadDiscovery := st.reloadDiscovery || P.any (fun p =>
            ((lookupKey p st.manifests).map (resolutionFails mapper)).getD false),
          calls := st.calls ++ P.filterMap (fun p =>
            (lookupKey p st.manifests).bind (manifestCall client mapper p)),
          resolutions := st.resolutions ++
            P.filter (fun p => (lookupKey p st.manifests).isSome) } := by
  intro P
  induction P with
  | nil =>
    intro st _ _
    have hf : st.manifests.filter (keepPred client mapper []) = st.manifests :=
      List.filter_eq_self.mpr (fun kv _ => by simp [keepPred])
    simp [hf]
  | cons p rest ih =>
    intro st hP hN
    have hPrest : rest.Nodup := hP.of_cons
    have hpnotin : p ∉ rest := (List.nodup_cons.mp hP).1
    rw [List.foldl_cons]
    rcases hlk : lookupKey p st.manifests with _ | m
    · -- the path is not a key of the pending map (unreachable from `create`)
      have hstep : processManifest client mapper st p = st := by
        simp [processManifest, hlk]
      rw [hstep, ih st hPrest hN]
      have hnp : p ∉ st.manifests.map Prod.fst := lookupKey_eq_none.mp hlk
      congr 1
      · refine List.filter_congr (fun kv hkv => ?_)
        have hne : kv.1 ≠ p :=
          fun he => hnp (he ▸ List.mem_map_of_mem Prod.fst hkv)
        simp [keepPred, List.mem_cons, hne]
      · simp [List.filterMap_cons, hlk]
      · simp [List.any_cons, hlk]
      · simp [List.filterMap_cons, hlk]
      · simp [List.filter_cons, hlk]
    · rw [processManifest_eq client mapper st p m hlk]
      cases hsr : shouldRemove client mapper m with
      | false =>
        rw [show (if (false : Bool) = true then eraseKey p st.manifests
            else st.manifests) = st.manifests from if_neg Bool.false_ne_true]
        rw [ih _ hPrest (by exact hN)]
        congr 1
        · refine List.filter_congr (fun kv hkv => ?_)
          by_cases he : kv.1 = p
          · have hv : kv.2 = m := value_eq_of_lookup hN hkv (he ▸ hlk)
            simp [keepPred, hv, hsr, List.mem_cons, he]
          · simp [keepPred, List.mem_cons, he]
        · cases hmf : manifestFailure client mapper m <;>
            simp [List.filterMap_cons, hlk, hmf, List.append_assoc]
        · simp [List.any_cons, hlk, Bool.or_assoc]
        · cases hmc : manifestCall client mapper p m <;>
            simp [List.filterMap_cons, hlk, hmc, List.append_assoc]
        · simp [List.filter_cons, hlk, List.append_assoc]
      | true =>
        rw [show (if (true : Bool) = true then eraseKey p st.manifests
            else st.manifests) = eraseKey p st.manifests from if_pos rfl]
        rw [ih _ hPrest (by exact eraseKey_map_fst_nodup hN)]
        have hlkrw : ∀ q ∈ rest,
            lookupKey q (eraseKey p st.manifests) = lookupKey q st.manifests := by
          intro q hq
          have hqp : q ≠ p := fun he => hpnotin (he ▸ hq)
          exact lookupKey_eraseKey_ne hqp
        congr 1
        · rw [eraseKey, List.filter_filter]
          refine List.filter_congr (fun kv hkv => ?_)
          by_cases he : kv.1 = p
          · have hv : kv.2 = m := value_eq_of_lookup hN hkv (he ▸ hlk)
            simp [keepPred, hv, hsr, List.mem_cons, he]
          · simp [keepPred, List.mem_cons, he]
        · rw [List.filterMap_congr (fun q hq => by rw [hlkrw q hq])]
          cases hmf : manifestFailure client mapper m <;>
            simp [List.filterMap_cons, hlk, hmf, List.append_assoc]
        · rw [any_congr (fun q hq => by rw [hlkrw q hq])]
          simp [List.any_cons, hlk, Bool.or_assoc]
        · rw [List.filterMap_congr (fun q hq => by rw [hlkrw q hq])]
          cases hmc : manifestCall client mapper p m <;>
            simp [List.filterMap_cons, hlk, hmc, List.append_assoc]
        · rw [List.filter_congr (fun q hq => by rw [hlkrw q hq])]
          simp [List.filter_cons, hlk, List.append_assoc]

/-- Sorting the keys is a permutation of the keys. -/
theorem sortStrings_perm (l : List String) : (sortStrings l).Perm l :=
  List.perm_insertionSort _ l

/-- Sorting the keys sorts them (lexicographically ascending). -/
theorem sortStrings_sorted (l : List String) :
    List.Sorted (fun a b => a ≤ b) (sortStrings l) :=
  List.sorted_insertionSort _ l

theorem mem_sortStrings {l : List String} {p : String} :
    p ∈ sortStrings l ↔ p ∈ l :=
  (sortStrings_perm l).mem_iff

theorem sortStrings_nodup {l : List String} (h : l.Nodup) :
    (sortStrings l).Nodup :=
  (sortStrings_perm l).nodup_iff.mpr h

/-- Initial state of one apply round. -/
theorem createRun_eq (ms : List (String × Unstructured)) (client : DynClient)
    (mapper : Mapper) (hn : (ms.map Prod.fst).Nodup) :
    createRun ms client mapper =
      { manifests := ms.filter
          (keepPred client mapper (sortStrings (ms.map Prod.fst))),
        errs := (sortStrings (ms.map Prod.fst)).filterMap (fun p =>
          (lookupKey p ms).bind
            (fun m => (manifestFailure client mapper m).map (fun e => (p, e)))),
        reloadDiscovery := (sortStrings (ms.map Prod.fst)).any (fun p =>
          ((lookupKey p ms).map (resolutionFails mapper)).getD false),
        calls := (sortStrings (ms.map Prod.fst)).filterMap (fun p =>
          (lookupKey p ms).bind (manifestCall client mapper p)),
        resolutions := (sortStrings (ms.map Prod.fst)).filter
          (fun p => (lookupKey p ms).isSome) } := by
  have h := foldl_process_eq client mapper (sortStrings (ms.map Prod.fst))
    ⟨ms, [], false, [], []⟩ (sortStrings_nodup hn) hn
  simpa [createRun] using h

/-- The pending map after one round is the filter of the input map keeping
exactly the entries for which the round did not succeed. -/
theorem createRun_manifests (ms : List (String × Unstructured))
    (client : DynClient) (mapper : Mapper) (hn : (ms.map Prod.fst).Nodup) :
    (createRun ms client mapper).manifests =
      ms.filter (fun kv => !shouldRemove client mapper kv.2) := by
  rw [createRun_eq ms client mapper hn]
  refine List.filter_congr (fun kv hkv => ?_)
  have hm : kv.1 ∈ sortStrings (ms.map Prod.fst) :=
    mem_sortStrings.mpr (List.mem_map_of_mem Prod.fst hkv)
  simp [keepPred, hm]

/-- The failure map after one round, in processing order. -/
theorem createRun_errs (ms : List (String × Unstructured)) (client : DynClient)
    (mapper : Mapper) (hn : (ms.map Prod.fst).Nodup) :
    (createRun ms client mapper).errs =
      (sortStrings (ms.map Prod.fst)).filterMap (fun p =>
        (lookupKey p ms).bind
          (fun m => (manifestFailure client mapper m).map (fun e => (p, e)))) := by
  rw [createRun_eq ms client mapper hn]

/-- The stale-mapping signal is set after one round precisely when some
pending manifest's type resolution failed. -/
theorem createRun_reload (ms : List (String × Unstructured))
    (client : DynClient) (mapper : Mapper) (hn : (ms.map Prod.fst).Nodup) :
    (createRun ms client mapper).reloadDiscovery = true ↔
      ∃ kv ∈ ms, resolutionFails mapper kv.2 = true := by
  rw [createRun_eq ms client mapper hn]
  simp only [List.any_eq_true]
  constructor
  · rintro ⟨p, hp, hg⟩
    rcases hlk : lookupKey p ms with _ | m
    · rw [hlk] at hg
      simp at hg
    · rw [hlk] at hg
      simp only [Option.map_some', Option.getD_some] at hg
      exact ⟨(p, m), lookupKey_mem hlk, hg⟩
  · rintro ⟨kv, hkv, hr⟩
    refine ⟨kv.1, mem_sortStrings.mpr (List.mem_map_of_mem Prod.fst hkv), ?_⟩
    rw [lookupKey_of_mem hn hkv]
    simpa using hr

/-- The create-call trace after one round, in processing order. -/
theorem createRun_calls (ms : List (String × Unstructured))
    (client : DynClient) (mapper : Mapper) (hn : (ms.map Prod.fst).Nodup) :
    (createRun ms client mapper).calls =
      (sortStrings (ms.map Prod.fst)).filterMap (fun p =>
        (lookupKey p ms).bind (manifestCall client mapper p)) := by
  rw [createRun_eq ms client mapper hn]

/-- Every pending manifest has its type resolution attempted, in sorted key
order, with no early exit. -/
theorem createRun_resolutions (ms : List (String × Unstructured))
    (client : DynClient) (mapper : Mapper) (hn : (ms.map Prod.fst).Nodup) :
    (createRun ms client mapper).resolutions =
      sortStrings (ms.map Prod.fst) := by
  rw [createRun_eq ms client mapper hn]
  refine List.filter_eq_self.mpr (fun p hp => ?_)
  exact lookupKey_isSome.mpr (mem_sortStrings.mp hp)

/-- The aggregated error is nil exactly for an empty failure map. -/
theorem formatErrors_eq_none {l : List (String × String)} :
    formatErrors l = none ↔ l = [] := by
  rcases l with _ | ⟨kv, rest⟩
  · simp [formatErrors]
  · simp [formatErrors]

/-- Map lookup is invariant under permutation when the keys are
duplicate-free. -/
theorem lookupKey_perm {l1 l2 : List (String × String)} (hp : l1.Perm l2)
    (hn : (l1.map Prod.fst).Nodup) (k : String) :
    lookupKey k l1 = lookupKey k l2 := by
  rcases h1 : lookupKey k l1 with _ | v
  · have hk : k ∉ l1.map Prod.fst := lookupKey_eq_none.mp h1
    have hk2 : k ∉ l2.map Prod.fst :=
      fun hm => hk (((hp.map Prod.fst).mem_iff).mpr hm)
    exact (lookupKey_eq_none.mpr hk2).symm
  · have hmem : (k, v) ∈ l2 := hp.mem_iff.mp (lookupKey_mem h1)
    have hn2 : (l2.map Prod.fst).Nodup := ((hp.map Prod.fst).nodup_iff).mp hn
    exact (lookupKey_of_mem hn2 hmem).symm

/-- For two failure maps with the same entries (in any insertion order) the
formatted message is byte-identical. -/
theorem formatErrors_perm {l1 l2 : List (String × String)} (hp : l1.Perm l2)
    (hn : (l1.map Prod.fst).Nodup) :
    formatErrors l1 = formatErrors l2 := by
  have hlen : l1.length = l2.length := hp.length_eq
  by_cases h0 : l1.length = 0
  · have h02 : l2.length = 0 := hlen ▸ h0
    simp [formatErrors, h0, h02]
  · have h02 : ¬ l2.length = 0 := by
      rw [← hlen]
      exact h0
    have hkeys : sortStrings (l1.map Prod.fst) = sortStrings (l2.map Prod.fst) := by
      refine List.eq_of_perm_of_sorted ?_ (sortStrings_sorted _)
        (sortStrings_sorted _)
      exact (sortStrings_perm _).trans
        ((hp.map Prod.fst).trans (sortStrings_perm _).symm)
    have hmap : (sortStrings (l2.map Prod.fst)).map
          (fun k => goQuote k ++ ": " ++ (lookupKey k l1).getD "") =
        (sortStrings (l2.map Prod.fst)).map
          (fun k => goQuote k ++ ": " ++ (lookupKey k l2).getD "") :=
      List.map_congr_left (fun k _ => by rw [lookupKey_perm hp hn k])
    simp only [formatErrors, if_neg h0, if_neg h02, hkeys, hmap]

/-- Unfolding of the resolution-failure test. -/
theorem resolutionFails_iff {mapper : Mapper} {m : Unstructured} :
    resolutionFails mapper m = true ↔
      ∃ e, mapper m.gvk.groupKind m.gvk.version = Except.error e := by
  rcases h : mapper m.gvk.groupKind m.gvk.version with e | mp
  · simp [resolutionFails, h]
  · simp [resolutionFails, h]

/-- Unfolding of the removal test: an entry is removed exactly when its type
resolves and the client answers created or already-exists. -/
theorem shouldRemove_iff {client : DynClient} {mapper : Mapper}
    {m : Unstructured} :
    shouldRemove client mapper m = true ↔
      ∃ mp, mapper m.gvk.groupKind m.gvk.version = Except.ok mp ∧
        (client mp.resource (resolveNs m mp) m = CreateResult.created ∨
         client mp.resource (resolveNs m mp) m = CreateResult.alreadyExists) := by
  rcases h : mapper m.gvk.groupKind m.gvk.version with e | mp
  · simp [shouldRemove, h]
  · rcases hc : client mp.resource (resolveNs m mp) m with _ | _ | msg <;>
      simp [shouldRemove, h, hc]

/-- A `filterMap` whose produced elements remember their source is a sublist
of the source (after projecting back). -/
theorem map_filterMap_sublist {α β : Type} (g : α → Option β) (h : β → α)
    (hg : ∀ a b, g a = some b → h b = a) :
    ∀ P : List α, ((P.filterMap g).map h).Sublist P := by
  intro P
  induction P with
  | nil => simp
  | cons a P ih =>
    rcases hga : g a with _ | b
    · simp only [List.filterMap_cons, hga]
      exact ih.cons a
    · simp only [List.filterMap_cons, hga, List.map_cons, hg a b hga]
      exact ih.cons₂ a

/-- First component of the Go return tuple. -/
theorem create_fst (ms : List (String × Unstructured)) (client : DynClient)
    (mapper : Mapper) :
    (create ms client mapper).1 = (createRun ms client mapper).manifests := rfl

/-- Error component of the Go return tuple. -/
theorem create_err (ms : List (String × Unstructured)) (client : DynClient)
    (mapper : Mapper) :
    (create ms client mapper).2.1 =
      formatErrors (createRun ms client mapper).errs := rfl

/-- Stale-signal component of the Go return tuple. -/
theorem create_reload (ms : List (String × Unstructured)) (client : DynClient)
    (mapper : Mapper) :
    (create ms client mapper).2.2 =
      (createRun ms client mapper).reloadDiscovery := rfl

/-- Whatever the poll round decides, the pending map it carries forward is
the one produced by this round's `create`. -/
theorem pollRound_state_manifests (client : DynClient)
    (getMapper : Nat → Except String Mapper) (round : Nat) (st : DriverState) :
    ((pollRound client getMapper round st).state).manifests =
      (createRun st.manifests client st.mapper).manifests := by
  simp only [pollRound]
  rcases h : formatErrors (createRun st.manifests client st.mapper).errs with _ | e
  · rfl
  · by_cases hr : (createRun st.manifests client st.mapper).reloadDiscovery = true
    · simp only [hr, if_pos]
      rcases getMapper round with re | mnew <;> rfl
    · simp only [if_neg hr]
      rfl

/-- Example fixtures used by the witness theorems. -/
def exGvkA : GroupVersionKind := ⟨"apps", "v1", "Deployment"⟩

def exGvkB : GroupVersionKind := ⟨"", "v1", "ConfigMap"⟩

def exManifestA : Unstructured := ⟨exGvkA, "obj-a", "default"⟩

def exManifestB : Unstructured := ⟨exGvkB, "obj-b", "ns1"⟩

def exMapperOk : Mapper := fun _ _ => .ok ⟨"deployments", .namespaced⟩

def exMapperFail : Mapper := fun _ _ => .error "no matches for kind"

def exClientOk : DynClient := fun _ _ _ => .created

def exClientExists : DynClient := fun _ _ _ => .alreadyExists

def exClientFail : DynClient := fun _ _ _ => .failed "boom"

def exMs : List (String × Unstructured) :=
  [("01_a.yaml", exManifestA), ("02_b.yaml", exManifestB)]

def exMsA : List (String × Unstructured) :=
  [("01_a.yaml", exManifestA)]

/-- C8: for any two failure mappings with the same entries, regardless of
insertion order, the error-aggregation function produces byte-identical
messages (paths listed in sorted order), and it returns nil exactly when the
failure mapping is empty. -/
theorem c8_deterministic_formatting :
    (∀ l1 l2 : List (String × String), l1.Perm l2 → (l1.map Prod.fst).Nodup →
      formatErrors l1 = formatErrors l2) ∧
    (∀ l : List (String × String), formatErrors l = none ↔ l = []) :=
  ⟨fun _ _ hp hn => formatErrors_perm hp hn, fun _ => formatErrors_eq_none⟩

/-- Witness for C8 at a concrete pair of reordered failure maps. -/
theorem c8_deterministic_formatting_witness :
    formatErrors [("b", "x"), ("a", "y")] = formatErrors [("a", "y"), ("b", "x")] :=
  c8_deterministic_formatting.1 [("b", "x"), ("a", "y")] [("a", "y"), ("b", "x")]
    (by decide) (by decide)

/-- C9: the stale-mapping signal is true iff at least one pending manifest's
type resolution failed this round; creation failures, already-exists outcomes
and successes never set it; and the apply step over an empty pending set
returns an empty map, nil error and a false signal. -/
theorem c9_stale_signal_characterization (ms : List (String × Unstructured))
    (client : DynClient) (mapper : Mapper) (hn : (ms.map Prod.fst).Nodup) :
    ((create ms client mapper).2.2 = true ↔
      ∃ kv ∈ ms, ∃ e,
        mapper kv.2.gvk.groupKind kv.2.gvk.version = Except.error e) ∧
    create [] client mapper = ([], none, false) := by
  refine ⟨?_, rfl⟩
  rw [create_reload, createRun_reload ms client mapper hn]
  exact ⟨fun ⟨kv, hkv, hr⟩ => ⟨kv, hkv, resolutionFails_iff.mp hr⟩,
    fun ⟨kv, hkv, he⟩ => ⟨kv, hkv, resolutionFails_iff.mpr he⟩⟩

/-- Witness for C9: one manifest fails resolution, so the signal is true. -/
theorem c9_stale_signal_witness :
    (create exMs exClientOk exMapperFail).2.2 = true :=
  (c9_stale_signal_characterization exMs exClientOk exMapperFail
    (by decide)).1.mpr
    ⟨("01_a.yaml", exManifestA), by decide, "no matches for kind", rfl⟩

/-- C1: one apply round only ever shrinks the pending map: the result is a
sublist of the input (no entry added, size non-increasing), an entry is gone
exactly when its create request succeeded or was answered already-exists
(failures of resolution or creation stay), and across driver rounds the
pending map carried forward is a sublist of the previous one. -/
theorem c1_pending_only_shrinks (ms : List (String × Unstructured))
    (client : DynClient) (mapper : Mapper) (hn : (ms.map Prod.fst).Nodup) :
    ((create ms client mapper).1).Sublist ms ∧
    ((create ms client mapper).1).length ≤ ms.length ∧
    (∀ path m, (path, m) ∈ ms →
      ((path, m) ∉ (create ms client mapper).1 ↔
        ∃ mp, mapper m.gvk.groupKind m.gvk.version = Except.ok mp ∧
          (client mp.resource (resolveNs m mp) m = CreateResult.created ∨
           client mp.resource (resolveNs m mp) m = CreateResult.alreadyExists))) ∧
    (∀ (getMapper : Nat → Except String Mapper) (round : Nat)
      (st : DriverState), (st.manifests.map Prod.fst).Nodup →
      (((pollRound client getMapper round st).state).manifests).Sublist
        st.manifests) := by
  have hm := createRun_manifests ms client mapper hn
  have hsub : ((create ms client mapper).1).Sublist ms := by
    rw [create_fst, hm]
    exact List.filter_sublist ms
  refine ⟨hsub, hsub.length_le, ?_, ?_⟩
  · intro path m hmem
    rw [create_fst, hm, ← shouldRemove_iff]
    constructor
    · intro hnot
      rcases hb : shouldRemove client mapper m with _ | _
      · exact absurd (List.mem_filter.mpr ⟨hmem, by simp [hb]⟩) hnot
      · rfl
    · intro hsr hmemf
      have := (List.mem_filter.mp hmemf).2
      rw [hsr] at this
      simp at this
  · intro getMapper round st hst
    rw [pollRound_state_manifests,
      createRun_manifests st.manifests client st.mapper hst]
    exact List.filter_sublist st.manifests

/-- Witness for C1 at a concrete run: both manifests are created, so the
result is the empty pending map, a sublist of the input. -/
theorem c1_pending_only_shrinks_witness :
    ((create exMsA exClientOk exMapperOk).1).Sublist exMsA ∧
    (create exMsA exClientOk exMapperOk).1 = [] :=
  ⟨(c1_pending_only_shrinks exMsA exClientOk exMapperOk (by decide)).1, by rfl⟩

/-- C2: a manifest whose create request is answered already-exists is treated
as success: it is removed from the pending map and no failure is recorded for
it, so the aggregated error of the round does not list its path. -/
theorem c2_already_exists_is_success (ms : List (String × Unstructured))
    (client : DynClient) (mapper : Mapper) (path : String) (m : Unstructured)
    (mp : RESTMapping) (hn : (ms.map Prod.fst).Nodup)
    (hmem : (path, m) ∈ ms)
    (hres : mapper m.gvk.groupKind m.gvk.version = Except.ok mp)
    (hae : client mp.resource (resolveNs m mp) m = CreateResult.alreadyExists) :
    path ∉ ((create ms client mapper).1).map Prod.fst ∧
    path ∉ ((createRun ms client mapper).errs).map Prod.fst := by
  have hlkm : lookupKey path ms = some m := lookupKey_of_mem hn hmem
  have hsr : shouldRemove client mapper m = true :=
    shouldRemove_iff.mpr ⟨mp, hres, Or.inr hae⟩
  have hmf : manifestFailure client mapper m = none := by
    simp [manifestFailure, hres, hae]
  constructor
  · rw [create_fst, createRun_manifests ms client mapper hn]
    intro hmm
    rcases List.mem_map.mp hmm with ⟨kv, hkv, hkv1⟩
    obtain ⟨hkvm, hkvp⟩ := List.mem_filter.mp hkv
    have hv : kv.2 = m := value_eq_of_lookup hn hkvm (hkv1.symm ▸ hlkm)
    rw [hv, hsr] at hkvp
    simp at hkvp
  · rw [createRun_errs ms client mapper hn]
    intro hmm
    rcases List.mem_map.mp hmm with ⟨pe, hpe, hpe1⟩
    rcases List.mem_filterMap.mp hpe with ⟨p, _, hfp⟩
    rcases hlk : lookupKey p ms with _ | m'
    · rw [hlk] at hfp
      simp at hfp
    · rw [hlk] at hfp
      simp only [Option.some_bind] at hfp
      rcases hmf' : manifestFailure client mapper m' with _ | e
      · rw [hmf'] at hfp
        simp at hfp
      · rw [hmf'] at hfp
        simp only [Option.map_some'] at hfp
        have hpep : (p, e) = pe := (Option.some.injEq _ _).mp hfp
        have hpp : p = path := by
          rw [← hpe1, ← hpep]
        rw [hpp, hlkm] at hlk
        have hm' : m = m' := (Option.some.injEq _ _).mp hlk
        rw [← hm', hmf] at hmf'
        exact Option.noConfusion hmf'

/-- Witness for C2: a concrete already-existing manifest is removed and
recorded nowhere. -/
theorem c2_already_exists_is_success_witness :
    "01_a.yaml" ∉ ((create exMsA exClientExists exMapperOk).1).map Prod.fst ∧
    "01_a.yaml" ∉ ((createRun exMsA exClientExists exMapperOk).errs).map Prod.fst :=
  c2_already_exists_is_success exMsA exClientExists exMapperOk "01_a.yaml"
    exManifestA ⟨"deployments", .namespaced⟩ (by decide) (by decide) rfl rfl

/-- C3: a manifest whose type resolution fails gets a failure recorded, sets
the stale signal, stays pending, gets no create request, and the round
continues over every other manifest (full sorted resolution trace, no early
exit). -/
theorem c3_resolution_failure_handling (ms : List (String × Unstructured))
    (client : DynClient) (mapper : Mapper) (path : String) (m : Unstructured)
    (e : String) (hn : (ms.map Prod.fst).Nodup) (hmem : (path, m) ∈ ms)
    (hres : mapper m.gvk.groupKind m.gvk.version = Except.error e) :
    (path, "unable to get REST mapping: " ++ e) ∈
      (createRun ms client mapper).errs ∧
    (create ms client mapper).2.2 = true ∧
    (path, m) ∈ (create ms client mapper).1 ∧
    (∀ c ∈ (createRun ms client mapper).calls, c.path ≠ path) ∧
    (createRun ms client mapper).resolutions =
      sortStrings (ms.map Prod.fst) := by
  have hlkm : lookupKey path ms = some m := lookupKey_of_mem hn hmem
  have hsr : shouldRemove client mapper m = false := by
    simp [shouldRemove, hres]
  refine ⟨?_, ?_, ?_, ?_, createRun_resolutions ms client mapper hn⟩
  · rw [createRun_errs ms client mapper hn]
    refine List.mem_filterMap.mpr
      ⟨path, mem_sortStrings.mpr (List.mem_map_of_mem Prod.fst hmem), ?_⟩
    rw [hlkm]
    simp [manifestFailure, hres]
  · rw [create_reload]
    exact (createRun_reload ms client mapper hn).mpr
      ⟨(path, m), hmem, resolutionFails_iff.mpr ⟨e, hres⟩⟩
  · rw [create_fst, createRun_manifests ms client mapper hn]
    exact List.mem_filter.mpr ⟨hmem, by simp [hsr]⟩
  · intro c hc hcp
    rw [createRun_calls ms client mapper hn] at hc
    rcases List.mem_filterMap.mp hc with ⟨p, _, hfp⟩
    rcases hlk : lookupKey p ms with _ | m'
    · rw [hlk] at hfp
      simp at hfp
    · rw [hlk] at hfp
      simp only [Option.some_bind] at hfp
      rcases hmp : mapper m'.gvk.groupKind m'.gvk.version with e' | mp'
      · simp [manifestCall, hmp] at hfp
      · simp only [manifestCall, hmp] at hfp
        have hcpath : c.path = p := by
          rw [← (Option.some.injEq _ _).mp hfp]
        rw [hcp] at hcpath
        rw [← hcpath, hlkm] at hlk
        have hm' : m = m' := (Option.some.injEq _ _).mp hlk
        rw [← hm'] at hmp
        rw [hres] at hmp
        exact Except.noConfusion hmp

/-- Witness for C3 at a concrete unresolvable manifest. -/
theorem c3_resolution_failure_handling_witness :
    ("01_a.yaml",
      "unable to get REST mapping: " ++ "no matches for kind") ∈
      (createRun exMsA exClientOk exMapperFail).errs ∧
    (create exMsA exClientOk exMapperFail).2.2 = true ∧
    ("01_a.yaml", exManifestA) ∈ (create exMsA exClientOk exMapperFail).1 := by
  have h := c3_resolution_failure_handling exMsA exClientOk exMapperFail
    "01_a.yaml" exManifestA "no matches for kind" (by decide) (by decide) rfl
  exact ⟨h.1, h.2.1, h.2.2.1⟩

/-- C4: one apply round processes the pending manifests in lexicographically
ascending path order: the resolution trace is exactly the sorted key list (a
sorted permutation of the keys), and the create requests are issued in the
same ascending path order. -/
theorem c4_lexicographic_order (ms : List (String × Unstructured))
    (client : DynClient) (mapper : Mapper) (hn : (ms.map Prod.fst).Nodup) :
    (createRun ms client mapper).resolutions =
      sortStrings (ms.map Prod.fst) ∧
    ((createRun ms client mapper).resolutions).Perm (ms.map Prod.fst) ∧
    List.Sorted (fun a b => a ≤ b) ((createRun ms client mapper).resolutions) ∧
    List.Sorted (fun a b => a ≤ b)
      (((createRun ms client mapper).calls).map CreateCall.path) := by
  have hr := createRun_resolutions ms client mapper hn
  refine ⟨hr, ?_, ?_, ?_⟩
  · rw [hr]
    exact sortStrings_perm _
  · rw [hr]
    exact sortStrings_sorted _
  · rw [createRun_calls ms client mapper hn]
    have hsub := map_filterMap_sublist
      (fun p => (lookupKey p ms).bind (manifestCall client mapper p))
      CreateCall.path ?_ (sortStrings (ms.map Prod.fst))
    · exact List.Pairwise.sublist hsub (sortStrings_sorted _)
    · intro p c hpc
      replace hpc : (lookupKey p ms).bind (manifestCall client mapper p) =
        some c := hpc
      rcases hlk : lookupKey p ms with _ | m'
      · rw [hlk] at hpc
        simp at hpc
      · rw [hlk] at hpc
        simp only [Option.some_bind] at hpc
        rcases hmp : mapper m'.gvk.groupKind m'.gvk.version with e' | mp'
        · simp [manifestCall, hmp] at hpc
        · simp only [manifestCall, hmp] at hpc
          rw [← (Option.some.injEq _ _).mp hpc]

/-- Witness for C4 at a concrete pending map. -/
theorem c4_lexicographic_order_witness :
    (createRun exMsA exClientOk exMapperOk).resolutions =
      sortStrings (exMsA.map Prod.fst) ∧
    List.Sorted (fun a b => a ≤ b)
      (((createRun exMsA exClientOk exMapperOk).calls).map CreateCall.path) := by
  have h := c4_lexicographic_order exMsA exClientOk exMapperOk (by decide)
  exact ⟨h.1, h.2.2.2⟩

/-- In a round whose aggregated error is nil, every pending manifest resolved
and was answered created or already-exists. -/
theorem create_err_none_outcome (ms : List (String × Unstructured))
    (client : DynClient) (mapper : Mapper) (hn : (ms.map Prod.fst).Nodup)
    (h1 : (create ms client mapper).2.1 = none) :
    ∀ kv ∈ ms, ∃ mp,
      mapper kv.2.gvk.groupKind kv.2.gvk.version = Except.ok mp ∧
      (client mp.resource (resolveNs kv.2 mp) kv.2 = CreateResult.created ∨
       client mp.resource (resolveNs kv.2 mp) kv.2 =
         CreateResult.alreadyExists) := by
  rw [create_err] at h1
  have herrs : (createRun ms client mapper).errs = [] :=
    formatErrors_eq_none.mp h1
  rw [createRun_errs ms client mapper hn] at herrs
  intro kv hkv
  have hkey : kv.1 ∈ sortStrings (ms.map Prod.fst) :=
    mem_sortStrings.mpr (List.mem_map_of_mem Prod.fst hkv)
  have hnone := (List.filterMap_eq_nil.mp herrs) kv.1 hkey
  rw [lookupKey_of_mem hn hkv] at hnone
  simp only [Option.some_bind, Option.map_eq_none'] at hnone
  rcases hmp : mapper kv.2.gvk.groupKind kv.2.gvk.version with e | mp
  · simp [manifestFailure, hmp] at hnone
  · refine ⟨mp, rfl, ?_⟩
    rcases hc : client mp.resource (resolveNs kv.2 mp) kv.2 with _ | _ | msg
    · exact Or.inl rfl
    · exact Or.inr rfl
    · simp [manifestFailure, hmp, hc] at hnone

/-- C7: a full re-run of a previously fully successful apply round, against a
platform that now contains every resource the first run created or found
existing, answers already-exists for every manifest and returns the empty
pending map, a nil aggregated error and a false stale signal. -/
theorem c7_idempotent_rerun (ms : List (String × Unstructured))
    (client1 client2 : DynClient) (mapper : Mapper)
    (hn : (ms.map Prod.fst).Nodup)
    (h1 : (create ms client1 mapper).2.1 = none)
    (h2 : ∀ r n o, (client1 r n o = CreateResult.created ∨
        client1 r n o = CreateResult.alreadyExists) →
      client2 r n o = CreateResult.alreadyExists) :
    (∀ kv ∈ ms, ∃ mp,
      mapper kv.2.gvk.groupKind kv.2.gvk.version = Except.ok mp ∧
      client2 mp.resource (resolveNs kv.2 mp) kv.2 =
        CreateResult.alreadyExists) ∧
    create ms client2 mapper = ([], none, false) := by
  have hout := create_err_none_outcome ms client1 mapper hn h1
  have hall : ∀ kv ∈ ms, ∃ mp,
      mapper kv.2.gvk.groupKind kv.2.gvk.version = Except.ok mp ∧
      client2 mp.resource (resolveNs kv.2 mp) kv.2 =
        CreateResult.alreadyExists := by
    intro kv hkv
    rcases hout kv hkv with ⟨mp, hmp, hok⟩
    exact ⟨mp, hmp, h2 _ _ _ hok⟩
  refine ⟨hall, ?_⟩
  have hsr : ∀ kv ∈ ms, shouldRemove client2 mapper kv.2 = true := by
    intro kv hkv
    rcases hall kv hkv with ⟨mp, hmp, hae⟩
    exact shouldRemove_iff.mpr ⟨mp, hmp, Or.inr hae⟩
  have hmfn : ∀ kv ∈ ms, manifestFailure client2 mapper kv.2 = none := by
    intro kv hkv
    rcases hall kv hkv with ⟨mp, hmp, hae⟩
    simp [manifestFailure, hmp, hae]
  have hmani : (createRun ms client2 mapper).manifests = [] := by
    rw [createRun_manifests ms client2 mapper hn]
    refine List.filter_eq_nil.mpr (fun kv hkv => ?_)
    simp [hsr kv hkv]
  have herrs : (createRun ms client2 mapper).errs = [] := by
    rw [createRun_errs ms client2 mapper hn]
    refine List.filterMap_eq_nil.mpr (fun p hp => ?_)
    rcases hlk : lookupKey p ms with _ | m'
    · rfl
    · simp only [Option.some_bind]
      rw [hmfn (p, m') (lookupKey_mem hlk)]
      rfl
  have hrld : (createRun ms client2 mapper).reloadDiscovery = false := by
    rcases hb : (createRun ms client2 mapper).reloadDiscovery with _ | _
    · rfl
    · rcases (createRun_reload ms client2 mapper hn).mp hb with ⟨kv, hkv, hrf⟩
      rcases hall kv hkv with ⟨mp, hmp, _⟩
      rcases resolutionFails_iff.mp hrf with ⟨e, he⟩
      rw [hmp] at he
      exact Except.noConfusion he
  show ((createRun ms client2 mapper).manifests,
    formatErrors (createRun ms client2 mapper).errs,
    (createRun ms client2 mapper).reloadDiscovery) = ([], none, false)
  rw [hmani, herrs, hrld]
  rfl

/-- Witness for C7: a first run creates the manifest; the second run against
an all-exists client removes everything with no error. -/
theorem c7_idempotent_rerun_witness :
    create exMsA exClientExists exMapperOk = ([], none, false) :=
  (c7_idempotent_rerun exMsA exClientOk exClientExists exMapperOk (by decide)
    (by rfl) (fun _ _ _ _ => rfl)).2

/-- Driver invariant: either no error is recorded, or every manifest still
pending resolves under the current mapper.  It holds initially and is
preserved by every poll round (the Go code resets `lastCreateError` to nil
whenever a refresh succeeds, which is exactly what keeps it true). -/
def MapperConsistent (st : DriverState) : Prop :=
  st.lastCreateError = none ∨
    ∀ kv ∈ st.manifests, resolutionFails st.mapper kv.2 = false

/-- A continuing poll round preserves the invariant and key-uniqueness. -/
theorem pollRound_next_invariant (client : DynClient)
    (getMapper : Nat → Except String Mapper) (round : Nat)
    (st st' : DriverState) (hn : (st.manifests.map Prod.fst).Nodup)
    (h : pollRound client getMapper round st = .next st') :
    MapperConsistent st' ∧ (st'.manifests.map Prod.fst).Nodup := by
  have hn' : (((createRun st.manifests client st.mapper).manifests).map
      Prod.fst).Nodup := by
    rw [createRun_manifests st.manifests client st.mapper hn]
    exact hn.sublist ((List.filter_sublist _).map Prod.fst)
  simp only [pollRound] at h
  rcases herr : formatErrors (createRun st.manifests client st.mapper).errs
    with _ | e
  · rw [herr] at h
    exact RoundStep.noConfusion h
  · rw [herr] at h
    rcases hrl : (createRun st.manifests client st.mapper).reloadDiscovery
      with _ | _
    · rw [hrl] at h
      simp only [Bool.false_eq_true, if_false] at h
      injection h with h'
      subst h'
      refine ⟨Or.inr ?_, hn'⟩
      intro kv hkv
      rcases hb : resolutionFails st.mapper kv.2 with _ | _
      · rfl
      · have hmem : kv ∈ st.manifests := by
          have := createRun_manifests st.manifests client st.mapper hn
          rw [this] at hkv
          exact (List.mem_filter.mp hkv).1
        have : (createRun st.manifests client st.mapper).reloadDiscovery =
            true :=
          (createRun_reload st.manifests client st.mapper hn).mpr
            ⟨kv, hmem, hb⟩
        rw [hrl] at this
        exact Bool.noConfusion this
    · rw [hrl] at h
      simp only [if_pos] at h
      rcases hgm : getMapper round with re | mnew
      · rw [hgm] at h
        exact RoundStep.noConfusion h
      · rw [hgm] at h
        injection h with h'
        subst h'
        exact ⟨Or.inl rfl, hn'⟩

/-- A poll round can only abort with a condition error when the round
signalled a stale mapping and the rebuild failed; in that case nothing was
ever recorded as last create error. -/
theorem pollRound_exitErr_inv (client : DynClient)
    (getMapper : Nat → Except String Mapper) (round : Nat)
    (st st' : DriverState) (e : String)
    (hn : (st.manifests.map Prod.fst).Nodup) (hinv : MapperConsistent st)
    (h : pollRound client getMapper round st = .exitErr e st') :
    st'.lastCreateError = none ∧ getMapper round = Except.error e := by
  simp only [pollRound] at h
  rcases herr : formatErrors (createRun st.manifests client st.mapper).errs
    with _ | e0
  · rw [herr] at h
    exact RoundStep.noConfusion h
  · rw [herr] at h
    rcases hrl : (createRun st.manifests client st.mapper).reloadDiscovery
      with _ | _
    · rw [hrl] at h
      simp only [Bool.false_eq_true, if_false] at h
      exact RoundStep.noConfusion h
    · rw [hrl] at h
      simp only [if_pos] at h
      rcases hgm : getMapper round with re | mnew
      · rw [hgm] at h
        injection h with h1 h2
        subst h1
        subst h2
        have hlast : st.lastCreateError = none := by
          rcases hinv with hinv | hinv
          · exact hinv
          · rcases (createRun_reload st.manifests client st.mapper hn).mp hrl
              with ⟨kv, hkv, hrf⟩
            rw [hinv kv hkv] at hrf
            exact Bool.noConfusion hrf
        exact ⟨hlast, rfl⟩
      · rw [hgm] at h
        exact RoundStep.noConfusion h

/-- Along any run of the poll loop that ends in a condition error, the error
is a mapper-rebuild error and no last create error is recorded. -/
theorem runPoll_condErr_inv (client : DynClient)
    (getMapper : Nat → Except String Mapper) :
    ∀ (fuel round : Nat) (st st' : DriverState) (e : String),
      (st.manifests.map Prod.fst).Nodup → MapperConsistent st →
      runPoll client getMapper fuel round st = (.condErr e, st') →
      st'.lastCreateError = none ∧ ∃ r, getMapper r = Except.error e := by
  intro fuel
  induction fuel with
  | zero =>
    intro round st st' e _ _ h
    simp only [runPoll] at h
    exact PollExit.noConfusion (congrArg Prod.fst h)
  | succ fuel ih =>
    intro round st st' e hn hinv h
    simp only [runPoll] at h
    rcases hp : pollRound client getMapper round st with st1 | ⟨e1, st1⟩ | st1
    · rw [hp] at h
      exact PollExit.noConfusion (congrArg Prod.fst h)
    · rw [hp] at h
      have hpe : (PollExit.condErr e1 : PollExit) = PollExit.condErr e :=
        congrArg Prod.fst h
      have he : e1 = e := by injection hpe
      have hst : st1 = st' := congrArg Prod.snd h
      have hres := pollRound_exitErr_inv client getMapper round st st1 e1 hn
        hinv hp
      rw [← hst, ← he]
      exact ⟨hres.1, round, hres.2⟩
    · rw [hp] at h
      have hni := pollRound_next_invariant client getMapper round st st1 hn hp
      exact ih (round + 1) st1 st' e hni.2 hni.1 h

def exGetMapperErr : Nat → Except String Mapper :=
  fun _ => .error "discovery down"

/-- C6: whenever the apply step signals a stale mapping (and returns an
error), the driver rebuilds the mapper before the next round (the continuing
state carries the fresh mapper); if the rebuild fails the condition aborts the
loop at once with the rebuild's error, and that error is what
`EnsureManifestsCreated` returns to the caller. -/
theorem c6_stale_mapping_refresh (client : DynClient)
    (getMapper : Nat → Except String Mapper) (fuel : Nat)
    (ms : List (String × Unstructured)) (mapper0 : Mapper)
    (hn : (ms.map Prod.fst).Nodup) :
    (∀ (round : Nat) (st : DriverState) (e0 : String) (m : Mapper),
      formatErrors (createRun st.manifests client st.mapper).errs = some e0 →
      (createRun st.manifests client st.mapper).reloadDiscovery = true →
      getMapper round = Except.ok m →
      ∃ st', pollRound client getMapper round st = .next st' ∧
        st'.mapper = m) ∧
    (∀ (round : Nat) (st : DriverState) (e0 re : String),
      formatErrors (createRun st.manifests client st.mapper).errs = some e0 →
      (createRun st.manifests client st.mapper).reloadDiscovery = true →
      getMapper round = Except.error re →
      ∃ st', pollRound client getMapper round st = .exitErr re st') ∧
    (∀ (e : String) (st' : DriverState),
      runPoll client getMapper fuel 1 ⟨ms, mapper0, none, []⟩ =
        (.condErr e, st') →
      ensureRetry client getMapper fuel ms mapper0 = (some e, st') ∧
      ∃ r, getMapper r = Except.error e) := by
  refine ⟨?_, ?_, ?_⟩
  · intro round st e0 m herr hrl hgm
    refine ⟨⟨(createRun st.manifests client st.mapper).manifests, m, none,
      st.calls ++ (createRun st.manifests client st.mapper).calls⟩, ?_, rfl⟩
    simp only [pollRound, herr, hrl, if_pos, hgm]
  · intro round st e0 re herr hrl hgm
    refine ⟨⟨(createRun st.manifests client st.mapper).manifests, st.mapper,
      st.lastCreateError,
      st.calls ++ (createRun st.manifests client st.mapper).calls⟩, ?_⟩
    simp only [pollRound, herr, hrl, if_pos, hgm]
  · intro e st' hrun
    have hinv0 : MapperConsistent ⟨ms, mapper0, none, []⟩ := Or.inl rfl
    have hres := runPoll_condErr_inv client getMapper fuel 1
      ⟨ms, mapper0, none, []⟩ st' e hn hinv0 hrun
    refine ⟨?_, hres.2⟩
    simp only [ensureRetry, hrun, hres.1]

/-- Witness for C6: resolution fails and the rebuild fails, so the driver
returns the discovery error. -/
theorem c6_stale_mapping_refresh_witness :
    ensureRetry exClientOk exGetMapperErr 1 exMsA exMapperFail =
      (some "discovery down", ⟨exMsA, exMapperFail, none, []⟩) :=
  ((c6_stale_mapping_refresh exClientOk exGetMapperErr 1 exMsA exMapperFail
    (by decide)).2.2 "discovery down" ⟨exMsA, exMapperFail, none, []⟩
    (by rfl)).1

def exGetMapperStillFail : Nat → Except String Mapper :=
  fun _ => .ok exMapperFail

def exResolutionErrMsg : String :=
  "failed to create some manifests:\n\"01_a.yaml\": unable to get REST mapping: no matches for kind\n"

/-- Counterexample to C5 as stated: in round 1 the apply step returns a
non-nil aggregated error and the loop continues (stale mapping, rebuild
succeeds), yet the carried-forward `lastCreateError` is `none` — the Go code
assigns `mapper, err = getRESTMapper()` and then `lastCreateError = err`,
recording the nil rebuild error instead of the aggregated create error — so
when the deadline then fires the caller gets the generic timeout error, not
the recorded aggregated error. -/
theorem c5_last_error_counterexample :
    formatErrors (createRun exMsA exClientOk exMapperFail).errs =
      some exResolutionErrMsg ∧
    pollRound exClientOk exGetMapperStillFail 1
      ⟨exMsA, exMapperFail, none, []⟩ =
      .next ⟨exMsA, exMapperFail, none, []⟩ ∧
    (ensureRetry exClientOk exGetMapperStillFail 1 exMsA exMapperFail).1 =
      some waitTimeoutMessage ∧
    waitTimeoutMessage ≠ exResolutionErrMsg := by
  refine ⟨rfl, rfl, rfl, ?_⟩
  intro h
  exact absurd (congrArg String.length h) (by decide)

def exGetMapperUnused : Nat → Except String Mapper :=
  fun _ => .ok exMapperOk

def exCreateFailMsg : String :=
  "failed to create some manifests:\n\"01_a.yaml\": failed to create: boom\n"

def exDriverStFail : DriverState :=
  ⟨exMsA, exMapperOk, some exCreateFailMsg,
    [⟨"01_a.yaml", "deployments", some "default", exManifestA⟩]⟩

/-- C5 (amended): in every polling round in which the apply step returns a
non-nil aggregated error, the loop does not terminate and the mapping is NOT
rebuilt, that error is recorded as the last observed error; in a round whose
rebuild succeeds the last observed error is instead reset to nil (the Go
`mapper, err = getRESTMapper()` assignment overwrites the aggregated error);
and when the loop exits because the deadline is done, a recorded non-nil last
observed error is returned in preference to the generic timeout error. -/
theorem c5_last_error_amended (client : DynClient)
    (getMapper : Nat → Except String Mapper) :
    (∀ (round : Nat) (st st' : DriverState) (e : String),
      formatErrors (createRun st.manifests client st.mapper).errs = some e →
      (createRun st.manifests client st.mapper).reloadDiscovery = false →
      pollRound client getMapper round st = .next st' →
      st'.lastCreateError = some e) ∧
    (∀ (round : Nat) (st st' : DriverState) (e : String) (m : Mapper),
      formatErrors (createRun st.manifests client st.mapper).errs = some e →
      (createRun st.manifests client st.mapper).reloadDiscovery = true →
      getMapper round = Except.ok m →
      pollRound client getMapper round st = .next st' →
      st'.lastCreateError = none ∧ st'.mapper = m) ∧
    (∀ (fuel : Nat) (ms : List (String × Unstructured)) (mapper0 : Mapper)
      (st : DriverState) (e : String),
      runPoll client getMapper fuel 1 ⟨ms, mapper0, none, []⟩ =
        (.timeout, st) →
      st.lastCreateError = some e →
      ensureRetry client getMapper fuel ms mapper0 = (some e, st)) := by
  refine ⟨?_, ?_, ?_⟩
  · intro round st st' e herr hrl hp
    simp only [pollRound, herr, hrl, Bool.false_eq_true, if_false] at hp
    injection hp with hp'
    rw [← hp']
  · intro round st st' e m herr hrl hgm hp
    simp only [pollRound, herr, hrl, if_pos, hgm] at hp
    injection hp with hp'
    rw [← hp']
    exact ⟨rfl, rfl⟩
  · intro fuel ms mapper0 st e hrun hlast
    simp only [ensureRetry, hrun, hlast]

/-- Witness for the amended C5: a plain create failure (no stale mapping) is
recorded and returned instead of the timeout error once the deadline fires. -/
theorem c5_last_error_amended_witness :
    ensureRetry exClientFail exGetMapperUnused 1 exMsA exMapperOk =
      (some exCreateFailMsg, exDriverStFail) :=
  (c5_last_error_amended exClientFail exGetMapperUnused).2.2 1 exMsA exMapperOk
    exDriverStFail exCreateFailMsg (by rfl) (by rfl)

/-- C10: any error from `load` — including the aggregated decode error that
accompanies a partially successful decode — makes the entry point return that
error at once: no create request is ever issued and the partial manifest map
is discarded. -/
theorem c10_load_error_short_circuits (w : EntryWorld) (manifestDir : String)
    (fuel : Nat) (client : DynClient) (e : String)
    (hc : w.newDynamicClient = Except.ok client)
    (hd : w.newDiscoveryClient = Except.ok ())
    (hl : (load w.loader manifestDir).2 = some e) :
    ensureManifestsCreated w manifestDir fuel = (some e, []) := by
  simp only [ensureManifestsCreated, hc, hd, hl]

def exLoaderPartial : LoaderWorld :=
  { statExists := true
    files := .ok [("good.yaml", "goodbytes"), ("bad.yaml", "badbytes")]
    yamlToJSON := fun b => if b = "badbytes" then .error "bad yaml" else .ok b
    decodeObj := fun _ => .ok (.unstructuredObj exManifestA) }

def exEntryWorld : EntryWorld :=
  { newDynamicClient := .ok exClientOk
    newDiscoveryClient := .ok ()
    loader := exLoaderPartial
    getRESTMapper := fun _ => .ok exMapperOk }

def exLoadErrMsg : String :=
  "failed to create some manifests:\n\"bad.yaml\": unable to convert asset \"bad.yaml\" from YAML to JSON: bad yaml\n"

/-- Witness for C10: one manifest decodes, one fails; the entry point returns
the aggregated decode error, issues no create call, and drops the partially
decoded manifest. -/
theorem c10_load_error_short_circuits_witness :
    ensureManifestsCreated exEntryWorld "manifests" 3 =
      (some exLoadErrMsg, []) ∧
    (load exLoaderPartial "manifests").1 = [("good.yaml", exManifestA)] :=
  ⟨c10_load_error_short_circuits exEntryWorld "manifests" 3 exClientOk
    exLoadErrMsg rfl rfl (by rfl), by rfl⟩
